import Mathlib

/-!
Verification development for the grain_processor repository.

Shallow embedding conventions:
* audio samples (Rust `f64`) are modelled as rationals `ℚ`; the claims
  settled here are about index arithmetic, control flow and exact
  algebraic identities, not about rounding;
* the external DSP / decoding / storage collaborators (the `aus` crate,
  the `biquad` design function, sqlite) are abstracted into a record of
  function parameters (`Dsp`); the biquad `DirectForm2Transposed`
  single-sample recurrence itself is embedded, with the designed
  coefficients abstract, because the quality filter's behaviour on
  all-zero input depends on it;
* the two `while` loops of the source that are not structurally
  recursive (`extract_grain_frames`, the fft-size search, the chunk
  splitter) are embedded with an explicit fuel argument; sufficiency of
  the chosen fuel is proved where the loop terminates, and the
  non-termination of `extract_grain_frames` at `grain_spacing = 0` is
  expressed as non-stabilisation in the fuel.
-/

namespace GrainProc

/-- Error type of grain_extractor.rs (`GrainError`). -/
inductive GrainError where
  | GrainTooShort (msg : String)
  | GrainTooLong (msg : String)
deriving DecidableEq

/-- Result record of the external `aus::analysis::analyzer` collaborator:
the fourteen named spectral descriptors. -/
structure SpectralAnalysis where
  spectral_centroid : ℚ
  spectral_entropy : ℚ
  spectral_flatness : ℚ
  spectral_kurtosis : ℚ
  spectral_roll_off_50 : ℚ
  spectral_roll_off_75 : ℚ
  spectral_roll_off_90 : ℚ
  spectral_roll_off_95 : ℚ
  spectral_skewness : ℚ
  spectral_slope : ℚ
  spectral_slope_0_1_khz : ℚ
  spectral_slope_1_5_khz : ℚ
  spectral_slope_0_5_khz : ℚ
  spectral_variance : ℚ
deriving DecidableEq

/-- The `GrainEntry` record of grain_extractor.rs. -/
structure GrainEntry where
  file : String
  start_frame : Nat
  end_frame : Nat
  sample_rate : Nat
  grain_duration : ℚ
  energy : ℚ
  pitch_estimation : ℚ
  midi : ℚ
  spectral_centroid : ℚ
  spectral_entropy : ℚ
  spectral_flatness : ℚ
  spectral_kurtosis : ℚ
  spectral_roll_off_50 : ℚ
  spectral_roll_off_75 : ℚ
  spectral_roll_off_90 : ℚ
  spectral_roll_off_95 : ℚ
  spectral_skewness : ℚ
  spectral_slope : ℚ
  spectral_slope_0_1_khz : ℚ
  spectral_slope_1_5_khz : ℚ
  spectral_slope_0_5_khz : ℚ
  spectral_variance : ℚ
deriving DecidableEq

/-- Coefficients of one biquad section, as the `biquad` crate's
`Coefficients` carries them (the design at 220 Hz Butterworth highpass is
the external collaborator; the coefficients stay abstract). -/
structure BiquadCoefs where
  b0 : ℚ
  b1 : ℚ
  b2 : ℚ
  a1 : ℚ
  a2 : ℚ

/-- State of `DirectForm2Transposed`. The source constructs it with both
delay registers zero. -/
structure Df2tState where
  s1 : ℚ
  s2 : ℚ

/-- Single-sample recurrence of `DirectForm2Transposed::run` in the
`biquad` crate: `out = s1 + b0*x; s1 <- s2 + b1*x - a1*out;
s2 <- b2*x - a2*out`. -/
def df2t_run (c : BiquadCoefs) (st : Df2tState) (x : ℚ) : ℚ × Df2tState :=
  let out := st.s1 + c.b0 * x
  (out, ⟨st.s2 + c.b1 * x - c.a1 * out, c.b2 * x - c.a2 * out⟩)

/-- The per-sample filtering loop of `analyze_grains`:
`for i in 0..audio.len() { filtered_audio[i] = filter.run(audio[i]); }`. -/
def df2t_filter_go (c : BiquadCoefs) : Df2tState → List ℚ → List ℚ
  | _, [] => []
  | st, x :: rest =>
    let r := df2t_run c st x
    r.1 :: df2t_filter_go c r.2 rest

/-- The whole-chunk high-pass probe signal, starting from the zero state. -/
def df2t_filter (c : BiquadCoefs) (audio : List ℚ) : List ℚ :=
  df2t_filter_go c ⟨0, 0⟩ audio

/-- The external DSP collaborators consumed by `analyze_grains`, bundled:
`generate_window` (window type fixed to Hanning at the call site),
the designed high-pass coefficients, `adjust_level` at -6 dB,
`energy`, the composition rfft → complex_to_polar_rfft → analyzer
(argument order: samples, fft_size, sample_rate), the pyin pitch
estimator (band limits folded in) and `freq_to_midi`. -/
structure Dsp where
  generate_window : Nat → List ℚ
  hp_coefs : BiquadCoefs
  adjust_level : List ℚ → List ℚ
  energy : List ℚ → ℚ
  spectral : List ℚ → Nat → Nat → SpectralAnalysis
  pitch : List ℚ → Nat → ℚ
  freq_to_midi : ℚ → ℚ

/-- Rust slice `xs[a..b].to_vec()` (for `a ≤ b ≤ xs.len()`, which holds at
every call site reached; out-of-range parts are truncated here where Rust
would panic). -/
def listSlice (xs : List ℚ) (a b : Nat) : List ℚ :=
  (xs.take b).drop a

/-- Loop body of `check_zeros`: walks the grain keeping the count of
consecutive samples whose absolute value is below `effective_zero`,
returning true as soon as the count reaches `num_consecutive_zeros`. -/
def check_zeros_loop (num_consecutive_zeros : Nat) (effective_zero : ℚ) :
    List ℚ → Nat → Bool
  | [], _ => false
  | x :: rest, consecutive =>
    if |x| < effective_zero then
      if num_consecutive_zeros ≤ consecutive + 1 then true
      else check_zeros_loop num_consecutive_zeros effective_zero rest (consecutive + 1)
    else check_zeros_loop num_consecutive_zeros effective_zero rest 0

/-- `check_zeros` of grain_extractor.rs. -/
def check_zeros (grain : List ℚ) (num_consecutive_zeros : Nat) (effective_zero : ℚ) : Bool :=
  check_zeros_loop num_consecutive_zeros effective_zero grain 0

/-- Head taper of `analyze_grains`:
`for j in 0..window.len()/2 { grain[j] *= window[j] }`. -/
def window_head (window : List ℚ) (grain : List ℚ) : List ℚ :=
  (List.range (window.length / 2)).foldl
    (fun g j => g.set j (g.getD j 0 * window.getD j 0)) grain

/-- Tail taper of `analyze_grains`:
`idx = grain.len() - (window.len() - window.len()/2);
for j in window.len()/2..window.len() { grain[idx] *= window[j]; idx += 1 }`.
The loop counter is shifted to `k = j - window.len()/2`. -/
def window_tail (window : List ℚ) (grain : List ℚ) : List ℚ :=
  (List.range (window.length - window.length / 2)).foldl
    (fun g k =>
      g.set (grain.length - (window.length - window.length / 2) + k)
        (g.getD (grain.length - (window.length - window.length / 2) + k) 0 *
          window.getD (window.length / 2 + k) 0)) grain

/-- Both taper loops of `analyze_grains`, head first as in the source. -/
def apply_window (window : List ℚ) (grain : List ℚ) : List ℚ :=
  window_tail window (window_head window grain)

/-- The window `analyze_grains` generates:
`generate_window(window_type, min(max_window_length, frames[0].1 - frames[0].0))`. -/
def grain_window (dsp : Dsp) (grain_frames : List (Nat × Nat)) (max_window_length : Nat) : List ℚ :=
  dsp.generate_window (min max_window_length ((grain_frames.headD (0, 0)).2 - (grain_frames.headD (0, 0)).1))

/-- One windowed grain: the slice of `samples` at the frame, tapered. -/
def windowed_grain (samples : List ℚ) (window : List ℚ) (fr : Nat × Nat) : List ℚ :=
  apply_window window (listSlice samples fr.1 fr.2)

/-- Rejection test of `analyze_grains` on the windowed high-pass probe:
`check_zeros(filtered_grain, filtered_grain.len()/8, 1e-3) ||
check_zeros(filtered_grain, 50, 1e-5)` (the grain is pushed when both are
false). -/
def grain_rejected (window : List ℚ) (filtered_audio : List ℚ) (fr : Nat × Nat) : Bool :=
  let filtered_grain := windowed_grain filtered_audio window fr
  check_zeros filtered_grain (filtered_grain.length / 8) (1 / 1000) ||
    check_zeros filtered_grain 50 (1 / 100000)

/-- The grain-collection loop of `analyze_grains` (lines 131–152): skipped
entirely when there are no frames; otherwise each frame's slice of the
audio and of the probe is tapered and the unfiltered grain is kept
exactly when neither `check_zeros` policy fires on the probe. -/
def surviving_grains (dsp : Dsp) (audio : List ℚ) (grain_frames : List (Nat × Nat))
    (max_window_length : Nat) : List (List ℚ) :=
  match grain_frames with
  | [] => []
  | _ :: _ =>
    let window := grain_window dsp grain_frames max_window_length
    let filtered_audio := df2t_filter dsp.hp_coefs audio
    grain_frames.filterMap fun fr =>
      if grain_rejected window filtered_audio fr then none
      else some (windowed_grain audio window fr)

/-- The frame-length verification loop of `analyze_grains` (lines 122–128):
the first frame longer than `fft_size` aborts the call with
`GrainTooLong`. -/
def check_frames (fft_size : Nat) : Nat → List (Nat × Nat) → Option GrainError
  | _, [] => none
  | i, fr :: rest =>
    if fft_size < fr.2 - fr.1 then
      some (GrainError.GrainTooLong
        ("Grain " ++ toString i ++ " is too long. The FFT size is " ++
          toString fft_size ++ ", but the grain len is " ++ toString (fr.2 - fr.1) ++ "."))
    else check_frames fft_size (i + 1) rest

/-- Assembly of one `GrainEntry` (lines 155–196): the surviving grain is
zero-padded to `fft_size`, level-adjusted, and the spectrum, pitch,
midi and energy are all computed from that padded, adjusted buffer;
the frame metadata is read from `grain_frames[i]` with the same index
`i` that runs over the surviving grains. -/
def mk_entry (dsp : Dsp) (file_name : String) (sample_rate fft_size : Nat)
    (fr : Nat × Nat) (grain : List ℚ) : GrainEntry :=
  let padded := grain ++ List.replicate (fft_size - grain.length) 0
  let adjusted := dsp.adjust_level padded
  let grain_analysis := dsp.spectral adjusted fft_size sample_rate
  let pe := dsp.pitch adjusted sample_rate
  { file := file_name
    start_frame := fr.1
    end_frame := fr.2
    sample_rate := sample_rate
    grain_duration := (sample_rate : ℚ) / ((fr.2 - fr.1 : Nat) : ℚ)
    energy := dsp.energy adjusted
    pitch_estimation := pe
    midi := dsp.freq_to_midi pe
    spectral_centroid := grain_analysis.spectral_centroid
    spectral_entropy := grain_analysis.spectral_entropy
    spectral_flatness := grain_analysis.spectral_flatness
    spectral_kurtosis := grain_analysis.spectral_kurtosis
    spectral_roll_off_50 := grain_analysis.spectral_roll_off_50
    spectral_roll_off_75 := grain_analysis.spectral_roll_off_75
    spectral_roll_off_90 := grain_analysis.spectral_roll_off_90
    spectral_roll_off_95 := grain_analysis.spectral_roll_off_95
    spectral_skewness := grain_analysis.spectral_skewness
    spectral_slope := grain_analysis.spectral_slope
    spectral_slope_0_1_khz := grain_analysis.spectral_slope_0_1_khz
    spectral_slope_1_5_khz := grain_analysis.spectral_slope_1_5_khz
    spectral_slope_0_5_khz := grain_analysis.spectral_slope_0_5_khz
    spectral_variance := grain_analysis.spectral_variance }

/-- `analyze_grains` of grain_extractor.rs with the external collaborators
abstracted into `dsp`. -/
def analyze_grains (dsp : Dsp) (file_name : String) (audio : List ℚ)
    (grain_frames : List (Nat × Nat)) (max_window_length sample_rate fft_size : Nat) :
    Except GrainError (List GrainEntry) :=
  match check_frames fft_size 0 grain_frames with
  | some e => Except.error e
  | none =>
    let grains := surviving_grains dsp audio grain_frames max_window_length
    Except.ok ((List.range grains.length).map fun i =>
      mk_entry dsp file_name sample_rate fft_size (grain_frames.getD i (0, 0)) (grains.getD i []))

/-- Loop of `extract_grain_frames` with explicit fuel:
`while i + grain_size < audio.len() { grains.push((i, i + grain_size)); i += grain_spacing }`. -/
def extract_frames_loop (len grain_size grain_spacing : Nat) : Nat → Nat → List (Nat × Nat)
  | 0, _ => []
  | fuel + 1, i =>
    if i + grain_size < len then
      (i, i + grain_size) :: extract_frames_loop len grain_size grain_spacing fuel (i + grain_spacing)
    else []

/-- `extract_grain_frames` of grain_extractor.rs. Fuel `audio.length` is
sufficient whenever `grain_spacing ≥ 1` (proved below); at
`grain_spacing = 0` the Rust loop does not terminate and the fueled
embedding never stabilises (also proved below). -/
def extract_grain_frames (audio : List ℚ) (grain_size grain_spacing initial_offset : Nat) :
    List (Nat × Nat) :=
  extract_frames_loop audio.length grain_size grain_spacing audio.length initial_offset

/-- The fft-size search of main.rs / process_grains with explicit fuel:
`let mut fft_size = 512; while fft_size < grain_size { fft_size *= 2 }`. -/
def fft_size_loop (grain_size : Nat) : Nat → Nat → Nat
  | 0, f => f
  | fuel + 1, f => if f < grain_size then fft_size_loop grain_size fuel (f * 2) else f

/-- The fft size used for one grain profile. Fuel `grain_size` is
sufficient because doubling from 512 reaches `grain_size` within
`grain_size` steps. -/
def compute_fft_size (grain_size : Nat) : Nat :=
  fft_size_loop grain_size grain_size 512

/-- `MAX_AUDIO_SIZE` of main.rs. -/
def MAX_AUDIO_SIZE : Nat := 44100 * 120

/-- `GranulatorConfig` of io.rs; untyped grain-profile maps are kept as
(grain_size, grain_spacing) pairs. -/
structure GranulatorConfig where
  database_path : String
  audio_source_directory : String
  grain_profiles : List (Nat × Nat)
  max_audio_chunk_size : Nat
  max_num_threads : Nat

/-- Chunk-splitting loop of main (lines 53–62), fueled:
`while start_idx < num_frames { emit samples[start_idx..end_idx];
start_idx = end_idx; end_idx = min(num_frames, start_idx + MAX_AUDIO_SIZE) }`
where every `end_idx` equals `min(num_frames, start_idx + MAX_AUDIO_SIZE)`. -/
def split_chunks_loop (samples : List ℚ) (max_audio_size : Nat) : Nat → Nat → List (List ℚ)
  | 0, _ => []
  | fuel + 1, start_idx =>
    if start_idx < samples.length then
      listSlice samples start_idx (min samples.length (start_idx + max_audio_size)) ::
        split_chunks_loop samples max_audio_size fuel (min samples.length (start_idx + max_audio_size))
    else []

/-- The chunks main produces from one decoded, mixed-down file. The
configuration is in scope exactly as in main, but the splitting bound is
the constant `MAX_AUDIO_SIZE`, not `cfg.max_audio_chunk_size`. -/
def main_chunks_of (_cfg : GranulatorConfig) (samples : List ℚ) : List (List ℚ) :=
  split_chunks_loop samples MAX_AUDIO_SIZE samples.length 0

/-- One chunk task of the per-profile worker pool in main (lines 94–110):
frames at initial offset 20000, fft size from the doubling search,
`analyze_grains` with Hanning / max_window_length 5000; an Ok batch is
sent on the channel with the chunk's file name, an Err batch is only
logged and sends nothing. A chunk is (file name, sample rate, samples). -/
def chunk_result (dsp : Dsp) (grain_size grain_spacing : Nat)
    (chunk : String × Nat × List ℚ) : Option (String × List GrainEntry) :=
  let frames := extract_grain_frames chunk.2.2 grain_size grain_spacing 20000
  let fft_size := compute_fft_size grain_size
  match analyze_grains dsp chunk.1 chunk.2.2 frames 5000 chunk.2.1 fft_size with
  | Except.ok grains => some (chunk.1, grains)
  | Except.error _ => none

/-- All batches one profile sends over the channel, in chunk order. A
concrete pool execution delivers them to the receiver in some
permutation of this list (each worker owns a cloned chunk and the
channel delivers every sent message exactly once). -/
def profile_batches (dsp : Dsp) (grain_size grain_spacing : Nat)
    (chunks : List (String × Nat × List ℚ)) : List (String × List GrainEntry) :=
  chunks.filterMap (chunk_result dsp grain_size grain_spacing)

/-- Presence of a run of `n` consecutive samples of `g`, all with absolute
value below `eps` (the reading of the spec's consecutive-near-zero
check). -/
def has_run (g : List ℚ) (n : Nat) (eps : ℚ) : Prop :=
  ∃ s, s + n ≤ g.length ∧ ∀ i < n, |g.getD (s + i) 0| < eps

/-- Modelled from the spec: one summand of the similarity utility as the
spec words it, `max(0, 1 - |a - b| / a)`, with the absolute value taken
of the numerator only. The source takes the absolute value of the whole
quotient; the two differ when `a` is negative. -/
def spec_similarity_term (a b : ℚ) : ℚ :=
  max 0 (1 - |a - b| / a)

/-- One summand of `similarity` as the source computes it:
`f64::max(1.0 - f64::abs((a - b) / a), 0.0)`. -/
def similarity_term (a b : ℚ) : ℚ :=
  max (1 - |(a - b) / a|) 0

/-- `similarity` of grain_extractor.rs: the fourteen descriptor terms
accumulated in source order, divided by 14. -/
def similarity (grain1 grain2 : GrainEntry) : ℚ :=
  (similarity_term grain1.spectral_centroid grain2.spectral_centroid +
   similarity_term grain1.spectral_entropy grain2.spectral_entropy +
   similarity_term grain1.spectral_flatness grain2.spectral_flatness +
   similarity_term grain1.spectral_kurtosis grain2.spectral_kurtosis +
   similarity_term grain1.spectral_roll_off_50 grain2.spectral_roll_off_50 +
   similarity_term grain1.spectral_roll_off_75 grain2.spectral_roll_off_75 +
   similarity_term grain1.spectral_roll_off_90 grain2.spectral_roll_off_90 +
   similarity_term grain1.spectral_roll_off_95 grain2.spectral_roll_off_95 +
   similarity_term grain1.spectral_skewness grain2.spectral_skewness +
   similarity_term grain1.spectral_slope grain2.spectral_slope +
   similarity_term grain1.spectral_slope_0_1_khz grain2.spectral_slope_0_1_khz +
   similarity_term grain1.spectral_slope_1_5_khz grain2.spectral_slope_1_5_khz +
   similarity_term grain1.spectral_slope_0_5_khz grain2.spectral_slope_0_5_khz +
   similarity_term grain1.spectral_variance grain2.spectral_variance) / 14

/-- Modelled from the spec: the whole similarity formula as the spec words
it, for comparison with the source's `similarity`. -/
def spec_similarity (grain1 grain2 : GrainEntry) : ℚ :=
  (spec_similarity_term grain1.spectral_centroid grain2.spectral_centroid +
   spec_similarity_term grain1.spectral_entropy grain2.spectral_entropy +
   spec_similarity_term grain1.spectral_flatness grain2.spectral_flatness +
   spec_similarity_term grain1.spectral_kurtosis grain2.spectral_kurtosis +
   spec_similarity_term grain1.spectral_roll_off_50 grain2.spectral_roll_off_50 +
   spec_similarity_term grain1.spectral_roll_off_75 grain2.spectral_roll_off_75 +
   spec_similarity_term grain1.spectral_roll_off_90 grain2.spectral_roll_off_90 +
   spec_similarity_term grain1.spectral_roll_off_95 grain2.spectral_roll_off_95 +
   spec_similarity_term grain1.spectral_skewness grain2.spectral_skewness +
   spec_similarity_term grain1.spectral_slope grain2.spectral_slope +
   spec_similarity_term grain1.spectral_slope_0_1_khz grain2.spectral_slope_0_1_khz +
   spec_similarity_term grain1.spectral_slope_1_5_khz grain2.spectral_slope_1_5_khz +
   spec_similarity_term grain1.spectral_slope_0_5_khz grain2.spectral_slope_0_5_khz +
   spec_similarity_term grain1.spectral_variance grain2.spectral_variance) / 14

/-- Concrete instantiation of the external collaborators, used for the
closed witness and counterexample theorems: identity filter, rectangular
window, halving level adjustment, sum-of-squares energy. -/
def exDsp : Dsp where
  generate_window := fun k => List.replicate k 1
  hp_coefs := ⟨1, 0, 0, 0, 0⟩
  adjust_level := fun g => g.map (fun x => x / 2)
  energy := fun g => (g.map (fun x => x * x)).sum
  spectral := fun _ _ _ => ⟨0, 0, 0, 0, 0, 0, 0, 0, 0, 0, 0, 0, 0, 0⟩
  pitch := fun _ _ => 0
  freq_to_midi := fun _ => 0

/-- Concrete entry with a negative spectral centroid (a spectral slope or
centroid can be negative for real signals) and all other descriptors 1,
used to compare the source's similarity formula with the spec's wording. -/
def cexEntry1 : GrainEntry where
  file := "a"
  start_frame := 0
  end_frame := 0
  sample_rate := 0
  grain_duration := 0
  energy := 0
  pitch_estimation := 0
  midi := 0
  spectral_centroid := -1
  spectral_entropy := 1
  spectral_flatness := 1
  spectral_kurtosis := 1
  spectral_roll_off_50 := 1
  spectral_roll_off_75 := 1
  spectral_roll_off_90 := 1
  spectral_roll_off_95 := 1
  spectral_skewness := 1
  spectral_slope := 1
  spectral_slope_0_1_khz := 1
  spectral_slope_1_5_khz := 1
  spectral_slope_0_5_khz := 1
  spectral_variance := 1

/-- Partner entry for the similarity comparison: identical to `cexEntry1`
except that the spectral centroid is `1` instead of `-1`. -/
def cexEntry2 : GrainEntry :=
  { cexEntry1 with spectral_centroid := 1 }

/-! ### Shared helper lemmas -/

theorem listSlice_length (xs : List ℚ) (a b : Nat) :
    (listSlice xs a b).length = min b xs.length - a := by
  simp [listSlice]

theorem df2t_filter_go_length (c : BiquadCoefs) :
    ∀ (audio : List ℚ) (st : Df2tState), (df2t_filter_go c st audio).length = audio.length := by
  intro audio
  induction audio with
  | nil => intro st; rfl
  | cons x rest ih => intro st; simp [df2t_filter_go, ih]

theorem df2t_filter_length (c : BiquadCoefs) (audio : List ℚ) :
    (df2t_filter c audio).length = audio.length :=
  df2t_filter_go_length c audio _

/-! ### The fft-size search (claim C6) -/

theorem fft_size_loop_spec (g : Nat) :
    ∀ fuel f, 1 ≤ f → g ≤ f * 2 ^ fuel →
      (∃ k, fft_size_loop g fuel f = f * 2 ^ k) ∧
        g ≤ fft_size_loop g fuel f ∧
        ∀ j, g ≤ f * 2 ^ j → fft_size_loop g fuel f ≤ f * 2 ^ j := by
  intro fuel
  induction fuel with
  | zero =>
    intro f hf hg
    simp only [pow_zero, mul_one] at hg
    refine ⟨⟨0, by simp [fft_size_loop]⟩, by simpa [fft_size_loop] using hg, ?_⟩
    intro j _
    calc fft_size_loop g 0 f = f * 1 := by simp [fft_size_loop]
    _ ≤ f * 2 ^ j := Nat.mul_le_mul_left f Nat.one_le_two_pow
  | succ fuel ih =>
    intro f hf hg
    by_cases hlt : f < g
    · have hg2 : g ≤ f * 2 * 2 ^ fuel := by
        calc g ≤ f * 2 ^ (fuel + 1) := hg
        _ = f * 2 * 2 ^ fuel := by ring
      obtain ⟨⟨k, hk⟩, hge, hmin⟩ := ih (f * 2) (by omega) hg2
      rw [show fft_size_loop g (fuel + 1) f = fft_size_loop g fuel (f * 2) by
        simp [fft_size_loop, hlt]]
      refine ⟨⟨k + 1, by rw [hk]; ring⟩, hge, ?_⟩
      intro j hj
      match j with
      | 0 => simp only [pow_zero, mul_one] at hj; omega
      | j + 1 =>
        have : g ≤ f * 2 * 2 ^ j := by
          calc g ≤ f * 2 ^ (j + 1) := hj
          _ = f * 2 * 2 ^ j := by ring
        calc fft_size_loop g fuel (f * 2) ≤ f * 2 * 2 ^ j := hmin j this
        _ = f * 2 ^ (j + 1) := by ring
    · rw [show fft_size_loop g (fuel + 1) f = f by simp [fft_size_loop, hlt]]
      refine ⟨⟨0, by simp⟩, by omega, ?_⟩
      intro j _
      calc f = f * 1 := by ring
      _ ≤ f * 2 ^ j := Nat.mul_le_mul_left f Nat.one_le_two_pow

/-- Claim C6: for every configured grain size, the fft size computed by the
doubling search is the smallest number of the form `512 * 2 ^ k` that is at
least `grain_size`, and it is exactly 512 whenever `grain_size ≤ 512`. -/
theorem compute_fft_size_spec (grain_size : Nat) :
    (∃ k, compute_fft_size grain_size = 512 * 2 ^ k) ∧
      grain_size ≤ compute_fft_size grain_size ∧
      (∀ j, grain_size ≤ 512 * 2 ^ j → compute_fft_size grain_size ≤ 512 * 2 ^ j) ∧
      (grain_size ≤ 512 → compute_fft_size grain_size = 512) := by
  have hfuel : grain_size ≤ 512 * 2 ^ grain_size := by
    have h1 : grain_size < 2 ^ grain_size := Nat.lt_two_pow grain_size
    have h2 : 2 ^ grain_size ≤ 512 * 2 ^ grain_size := by
      calc 2 ^ grain_size = 1 * 2 ^ grain_size := by ring
      _ ≤ 512 * 2 ^ grain_size := Nat.mul_le_mul_right _ (by omega)
    omega
  obtain ⟨hpow, hge, hmin⟩ := fft_size_loop_spec grain_size grain_size 512 (by omega) hfuel
  refine ⟨hpow, hge, hmin, ?_⟩
  intro hle
  match grain_size, hle with
  | 0, _ => rfl
  | (g + 1), hle =>
    have hnot : ¬ (512 < g + 1) := by omega
    simp [compute_fft_size, fft_size_loop, hnot]

/-! ### The frame-length check (claim C5) -/

theorem check_frames_none_iff (fft : Nat) :
    ∀ (i : Nat) (frames : List (Nat × Nat)),
      check_frames fft i frames = none ↔ ∀ fr ∈ frames, fr.2 - fr.1 ≤ fft := by
  intro i frames
  induction frames generalizing i with
  | nil => simp [check_frames]
  | cons fr rest ih =>
    by_cases h : fft < fr.2 - fr.1
    · simp [check_frames, h]
      omega
    · simp [check_frames, h, ih (i + 1)]
      intro _
      omega

theorem check_frames_some_shape (fft : Nat) :
    ∀ (i : Nat) (frames : List (Nat × Nat)) (e : GrainError),
      check_frames fft i frames = some e → ∃ msg, e = GrainError.GrainTooLong msg := by
  intro i frames
  induction frames generalizing i with
  | nil => intro e h; simp [check_frames] at h
  | cons fr rest ih =>
    intro e h
    by_cases hl : fft < fr.2 - fr.1
    · simp [check_frames, hl] at h
      exact ⟨_, h.symm⟩
    · simp [check_frames, hl] at h
      exact ih (i + 1) e h

/-- Claim C5: `analyze_grains` fails with `GrainTooLong` exactly when some
input frame is longer than `fft_size`; the failure is the whole call's
result (no entry is produced), and otherwise the call returns Ok. -/
theorem analyze_grains_too_long (dsp : Dsp) (file_name : String) (audio : List ℚ)
    (frames : List (Nat × Nat)) (mwl sr fft : Nat) :
    ((∃ fr ∈ frames, fft < fr.2 - fr.1) →
      ∃ msg, analyze_grains dsp file_name audio frames mwl sr fft =
        Except.error (GrainError.GrainTooLong msg)) ∧
    ((∀ fr ∈ frames, fr.2 - fr.1 ≤ fft) →
      ∃ es, analyze_grains dsp file_name audio frames mwl sr fft = Except.ok es) := by
  constructor
  · intro hex
    have hnone : check_frames fft 0 frames ≠ none := by
      rw [Ne, check_frames_none_iff]
      push_neg
      obtain ⟨fr, hmem, hlt⟩ := hex
      exact ⟨fr, hmem, by omega⟩
    obtain ⟨e, he⟩ := Option.ne_none_iff_exists'.mp hnone
    obtain ⟨msg, rfl⟩ := check_frames_some_shape fft 0 frames e he
    exact ⟨msg, by simp [analyze_grains, he]⟩
  · intro hall
    have hnone : check_frames fft 0 frames = none := (check_frames_none_iff fft 0 frames).mpr hall
    refine ⟨(List.range (surviving_grains dsp audio frames mwl).length).map fun i =>
      mk_entry dsp file_name sr fft (frames.getD i (0, 0))
        ((surviving_grains dsp audio frames mwl).getD i []), ?_⟩
    unfold analyze_grains
    rw [hnone]

/-! ### Grain frame extraction (claims C1 and C7) -/

theorem extract_frames_loop_char (len g s : Nat) :
    ∀ fuel i, len ≤ i + fuel * s + g →
      ∃ n, n ≤ fuel ∧
        extract_frames_loop len g s fuel i =
          (List.range n).map (fun k => (i + k * s, i + k * s + g)) ∧
        ∀ k, i + k * s + g < len ↔ k < n := by
  intro fuel
  induction fuel with
  | zero =>
    intro i hle
    simp only [Nat.zero_mul, Nat.add_zero] at hle
    refine ⟨0, le_refl 0, by simp [extract_frames_loop], ?_⟩
    intro k
    have hk : i + g ≤ i + k * s + g := by omega
    omega
  | succ fuel ih =>
    intro i hle
    by_cases hc : i + g < len
    · have hle2 : len ≤ (i + s) + fuel * s + g := by
        have hexp : i + (fuel + 1) * s + g = (i + s) + fuel * s + g := by ring
        rw [hexp] at hle
        exact hle
      obtain ⟨n, hn, heq, hchar⟩ := ih (i + s) hle2
      refine ⟨n + 1, by omega, ?_, ?_⟩
      · rw [show extract_frames_loop len g s (fuel + 1) i =
            (i, i + g) :: extract_frames_loop len g s fuel (i + s) by
          simp [extract_frames_loop, hc]]
        rw [heq, List.range_succ_eq_map, List.map_cons, List.map_map]
        refine congrArg₂ _ (by simp) ?_
        apply List.map_congr_left
        intro k _
        simp only [Function.comp_apply, Nat.succ_eq_add_one, Prod.mk.injEq]
        constructor <;> ring
      · intro k
        match k with
        | 0 => simpa using hc
        | k + 1 =>
          have hshift : i + (k + 1) * s + g = (i + s) + k * s + g := by ring
          rw [hshift]
          rw [hchar k]
          omega
    · refine ⟨0, by omega, by simp [extract_frames_loop, hc], ?_⟩
      intro k
      have hk : i + g ≤ i + k * s + g := by omega
      omega

/-- Claim C1: for `grain_spacing ≥ 1`, `extract_grain_frames` returns
exactly the frames `(i, i + grain_size)` for `i = o, o + s, o + 2s, …`
with `i + grain_size < audio.length`, in that order; it is empty whenever
`o + grain_size ≥ audio.length`, and every emitted frame has
`end = start + grain_size`, `start + grain_size < audio.length` and
`start < audio.length - grain_size` (so a frame ending exactly at the
sample count is never emitted). -/
theorem extract_grain_frames_spec (audio : List ℚ) (g s o : Nat) (hs : 1 ≤ s) :
    (∃ n, extract_grain_frames audio g s o =
        (List.range n).map (fun k => (o + k * s, o + k * s + g)) ∧
      ∀ k, o + k * s + g < audio.length ↔ k < n) ∧
    (audio.length ≤ o + g → extract_grain_frames audio g s o = []) ∧
    ∀ p ∈ extract_grain_frames audio g s o,
      p.2 = p.1 + g ∧ p.1 + g < audio.length ∧ p.1 < audio.length - g := by
  have hfuel : audio.length ≤ o + audio.length * s + g := by
    have h1 : audio.length * 1 ≤ audio.length * s := Nat.mul_le_mul_left _ hs
    simp only [mul_one] at h1
    omega
  obtain ⟨n, _, heq, hchar⟩ := extract_frames_loop_char audio.length g s audio.length o hfuel
  have hmain : extract_grain_frames audio g s o =
      (List.range n).map (fun k => (o + k * s, o + k * s + g)) := heq
  refine ⟨⟨n, hmain, hchar⟩, ?_, ?_⟩
  · intro hempty
    have hn0 : n = 0 := by
      by_contra hne
      have h0 : o + 0 * s + g < audio.length := (hchar 0).mpr (by omega)
      simp only [Nat.zero_mul, Nat.add_zero] at h0
      omega
    rw [hmain, hn0]
    rfl
  · intro p hp
    rw [hmain] at hp
    simp only [List.mem_map, List.mem_range] at hp
    obtain ⟨k, hk, rfl⟩ := hp
    have hlt : o + k * s + g < audio.length := (hchar k).mpr hk
    exact ⟨rfl, hlt, by omega⟩

/-- Claim C7: with `grain_spacing ≥ 1` the extraction loop terminates —
every fuel of at least `audio.length` yields the same result as the
chosen embedding, so the loop is insensitive to extra fuel — while with
`grain_spacing = 0` and one producible frame, the loop never exits: the
fueled loop emits one frame per unit of fuel, so its output stabilises
at no finite fuel. -/
theorem extract_frames_termination (audio : List ℚ) (g s o : Nat) :
    (1 ≤ s → ∀ fuel, audio.length ≤ fuel →
      extract_frames_loop audio.length g s fuel o = extract_grain_frames audio g s o) ∧
    (s = 0 → o + g < audio.length →
      ∀ fuel, (extract_frames_loop audio.length g 0 fuel o).length = fuel) := by
  constructor
  · intro hs fuel hge
    have hf1 : audio.length ≤ o + fuel * s + g := by
      have h1 : fuel * 1 ≤ fuel * s := Nat.mul_le_mul_left _ hs
      simp only [mul_one] at h1
      omega
    have hf2 : audio.length ≤ o + audio.length * s + g := by
      have h1 : audio.length * 1 ≤ audio.length * s := Nat.mul_le_mul_left _ hs
      simp only [mul_one] at h1
      omega
    obtain ⟨n1, _, heq1, hchar1⟩ := extract_frames_loop_char audio.length g s fuel o hf1
    obtain ⟨n2, _, heq2, hchar2⟩ := extract_frames_loop_char audio.length g s audio.length o hf2
    have hnn : n1 = n2 := by
      by_contra hne
      rcases Nat.lt_or_ge n1 n2 with h | h
      · have := (hchar2 n1).mpr h
        have := (hchar1 n1).mp this
        omega
      · have hlt : n2 < n1 := by omega
        have := (hchar1 n2).mpr hlt
        have := (hchar2 n2).mp this
        omega
    rw [show extract_grain_frames audio g s o =
      extract_frames_loop audio.length g s audio.length o from rfl, heq1, heq2, hnn]
  · intro hs0 hframe fuel
    subst hs0
    induction fuel with
    | zero => rfl
    | succ fuel ih =>
      rw [show extract_frames_loop audio.length g 0 (fuel + 1) o =
          (o, o + g) :: extract_frames_loop audio.length g 0 fuel (o + 0) by
        simp [extract_frames_loop, hframe]]
      simpa using ih

/-! ### List update helpers for the taper loops -/

theorem getD_set_self (l : List ℚ) (i : Nat) (v : ℚ) (h : i < l.length) :
    (l.set i v).getD i 0 = v := by
  induction l generalizing i with
  | nil => simp at h
  | cons x rest ih =>
    match i with
    | 0 => rfl
    | i + 1 => exact ih i (by simpa using h)

theorem getD_set_ne (l : List ℚ) (i j : Nat) (v : ℚ) (h : i ≠ j) :
    (l.set i v).getD j 0 = l.getD j 0 := by
  induction l generalizing i j with
  | nil => rfl
  | cons x rest ih =>
    match i, j with
    | 0, 0 => omega
    | 0, j + 1 => rfl
    | i + 1, 0 => rfl
    | i + 1, j + 1 => exact ih i j (by omega)

theorem fold_mul_set_length (φ : Nat → Nat) (c : Nat → ℚ) :
    ∀ (idxs : List Nat) (g : List ℚ),
      (idxs.foldl (fun acc k => acc.set (φ k) (acc.getD (φ k) 0 * c k)) g).length = g.length := by
  intro idxs
  induction idxs with
  | nil => intro g; rfl
  | cons k rest ih =>
    intro g
    rw [List.foldl_cons, ih]
    exact List.length_set ..

theorem fold_mul_set_getD_of_not_mem (φ : Nat → Nat) (c : Nat → ℚ) :
    ∀ (idxs : List Nat) (g : List ℚ) (j : Nat), (∀ k ∈ idxs, φ k ≠ j) →
      (idxs.foldl (fun acc k => acc.set (φ k) (acc.getD (φ k) 0 * c k)) g).getD j 0 =
        g.getD j 0 := by
  intro idxs
  induction idxs with
  | nil => intro g j _; rfl
  | cons k rest ih =>
    intro g j h
    rw [List.foldl_cons, ih _ _ (fun k2 hk2 => h k2 (List.mem_cons_of_mem _ hk2))]
    exact getD_set_ne _ _ _ _ (h k (List.mem_cons_self _ _))

theorem fold_mul_set_getD_range (φ : Nat → Nat) (c : Nat → ℚ)
    (hinj : ∀ k1 k2, φ k1 = φ k2 → k1 = k2) :
    ∀ (m : Nat) (g : List ℚ) (k : Nat), k < m → φ k < g.length →
      ((List.range m).foldl (fun acc i => acc.set (φ i) (acc.getD (φ i) 0 * c i)) g).getD
          (φ k) 0 =
        g.getD (φ k) 0 * c k := by
  intro m
  induction m with
  | zero => intro g k hk _; exact absurd hk (Nat.not_lt_zero k)
  | succ m ih =>
    intro g k hk hlen
    rw [List.range_succ, List.foldl_append, List.foldl_cons, List.foldl_nil]
    by_cases hkm : k = m
    · subst hkm
      rw [getD_set_self _ _ _ (by rw [fold_mul_set_length]; exact hlen)]
      rw [fold_mul_set_getD_of_not_mem φ c _ _ _ ?_]
      intro k2 hk2
      intro heq
      have := hinj k2 k heq
      simp only [List.mem_range] at hk2
      omega
    · rw [getD_set_ne _ _ _ _ (fun heq => hkm (hinj k m heq.symm))]
      exact ih g k (by omega) hlen

/-! ### Windowing (claim C2) -/

theorem window_head_length (window grain : List ℚ) :
    (window_head window grain).length = grain.length :=
  fold_mul_set_length (fun j => j) (fun j => window.getD j 0) _ grain

theorem window_head_getD_lo (window grain : List ℚ) (j : Nat) (hj : j < window.length / 2)
    (hjl : j < grain.length) :
    (window_head window grain).getD j 0 = grain.getD j 0 * window.getD j 0 :=
  fold_mul_set_getD_range (fun j => j) (fun j => window.getD j 0) (fun _ _ h => h)
    (window.length / 2) grain j hj hjl

theorem window_head_getD_hi (window grain : List ℚ) (j : Nat) (hj : window.length / 2 ≤ j) :
    (window_head window grain).getD j 0 = grain.getD j 0 :=
  fold_mul_set_getD_of_not_mem (fun j => j) (fun j => window.getD j 0) _ grain j
    (fun k hk => by
      simp only [List.mem_range] at hk
      show k ≠ j
      omega)

theorem window_tail_length (window G : List ℚ) : (window_tail window G).length = G.length :=
  fold_mul_set_length (fun k => G.length - (window.length - window.length / 2) + k)
    (fun k => window.getD (window.length / 2 + k) 0) _ G

theorem window_tail_getD_out (window G : List ℚ) (j : Nat)
    (hj : ∀ k, k < window.length - window.length / 2 →
      G.length - (window.length - window.length / 2) + k ≠ j) :
    (window_tail window G).getD j 0 = G.getD j 0 :=
  fold_mul_set_getD_of_not_mem (fun k => G.length - (window.length - window.length / 2) + k)
    (fun k => window.getD (window.length / 2 + k) 0) _ G j
    (fun k hk => hj k (by simpa using hk))

theorem window_tail_getD_in (window G : List ℚ) (k : Nat)
    (hk : k < window.length - window.length / 2)
    (hlen : G.length - (window.length - window.length / 2) + k < G.length) :
    (window_tail window G).getD (G.length - (window.length - window.length / 2) + k) 0 =
      G.getD (G.length - (window.length - window.length / 2) + k) 0 *
        window.getD (window.length / 2 + k) 0 :=
  fold_mul_set_getD_range (fun k => G.length - (window.length - window.length / 2) + k)
    (fun k => window.getD (window.length / 2 + k) 0)
    (fun k1 k2 h => by
      have h2 : G.length - (window.length - window.length / 2) + k1 =
          G.length - (window.length - window.length / 2) + k2 := h
      omega)
    (window.length - window.length / 2) G k hk hlen

/-- Claim C2: for a window of length `w ≤ n` (the grain length), the taper
multiplies `grain[j]` by `window[j]` for `j < w/2`, multiplies
`grain[n - (w - w/2) + (j - w/2)]` by `window[j]` for `w/2 ≤ j < w`,
leaves every index in `[w/2, n - (w - w/2))` unchanged, preserves the
grain's length, and when `w = n` scales every sample `j` by `window[j]`
(so the head and tail regions cover the grain exactly and no sample sits
between them). -/
theorem apply_window_spec (grain window : List ℚ) (hw : window.length ≤ grain.length) :
    (apply_window window grain).length = grain.length ∧
    (∀ j, j < window.length / 2 →
      (apply_window window grain).getD j 0 = grain.getD j 0 * window.getD j 0) ∧
    (∀ j, window.length / 2 ≤ j → j < window.length →
      (apply_window window grain).getD
          (grain.length - (window.length - window.length / 2) + (j - window.length / 2)) 0 =
        grain.getD
            (grain.length - (window.length - window.length / 2) + (j - window.length / 2)) 0 *
          window.getD j 0) ∧
    (∀ j, window.length / 2 ≤ j → j < grain.length - (window.length - window.length / 2) →
      (apply_window window grain).getD j 0 = grain.getD j 0) ∧
    (window.length = grain.length → ∀ j, j < window.length →
      (apply_window window grain).getD j 0 = grain.getD j 0 * window.getD j 0) := by
  obtain ⟨G, hGdef⟩ : ∃ G, window_head window grain = G := ⟨_, rfl⟩
  have hGlen : G.length = grain.length := by rw [← hGdef]; exact window_head_length window grain
  have hAW : apply_window window grain = window_tail window G := by rw [apply_window, hGdef]
  have hGlo : ∀ j, j < window.length / 2 → G.getD j 0 = grain.getD j 0 * window.getD j 0 := by
    intro j hj
    rw [← hGdef]
    exact window_head_getD_lo window grain j hj (by omega)
  have hGhi : ∀ j, window.length / 2 ≤ j → G.getD j 0 = grain.getD j 0 := by
    intro j hj
    rw [← hGdef]
    exact window_head_getD_hi window grain j hj
  have hlen : (apply_window window grain).length = grain.length := by
    rw [hAW, window_tail_length, hGlen]
  have hhead : ∀ j, j < window.length / 2 →
      (apply_window window grain).getD j 0 = grain.getD j 0 * window.getD j 0 := by
    intro j hj
    rw [hAW, window_tail_getD_out]
    · exact hGlo j hj
    · intro k hk
      rw [hGlen]
      omega
  have htail : ∀ j, window.length / 2 ≤ j → j < window.length →
      (apply_window window grain).getD
          (grain.length - (window.length - window.length / 2) + (j - window.length / 2)) 0 =
        grain.getD
            (grain.length - (window.length - window.length / 2) + (j - window.length / 2)) 0 *
          window.getD j 0 := by
    intro j hj1 hj2
    have hk : j - window.length / 2 < window.length - window.length / 2 := by omega
    rw [hAW]
    rw [show grain.length - (window.length - window.length / 2) + (j - window.length / 2) =
        G.length - (window.length - window.length / 2) + (j - window.length / 2) by
      rw [hGlen]]
    rw [window_tail_getD_in window G (j - window.length / 2) hk (by rw [hGlen]; omega)]
    rw [show window.length / 2 + (j - window.length / 2) = j by omega]
    rw [hGhi _ (by rw [hGlen]; omega)]
  have hmid : ∀ j, window.length / 2 ≤ j →
      j < grain.length - (window.length - window.length / 2) →
      (apply_window window grain).getD j 0 = grain.getD j 0 := by
    intro j hj1 hj2
    rw [hAW, window_tail_getD_out]
    · exact hGhi j hj1
    · intro k hk
      rw [hGlen]
      omega
  refine ⟨hlen, hhead, htail, hmid, ?_⟩
  intro hwn j hj
  by_cases hsplit : j < window.length / 2
  · exact hhead j hsplit
  · have h1 : window.length / 2 ≤ j := by omega
    have h2 := htail j h1 hj
    rw [show grain.length - (window.length - window.length / 2) + (j - window.length / 2) = j by
      omega] at h2
    exact h2

/-! ### The consecutive-near-zero check (claim C3) -/

theorem check_zeros_loop_iff (num : Nat) (eps : ℚ) :
    ∀ (l : List ℚ) (c : Nat),
      check_zeros_loop num eps l c = true ↔
        ((∃ t, 1 ≤ t ∧ t ≤ l.length ∧ num ≤ c + t ∧ ∀ i, i < t → |l.getD i 0| < eps) ∨
          (∃ s t, 1 ≤ t ∧ s + t ≤ l.length ∧ num ≤ t ∧
            ∀ i, i < t → |l.getD (s + i) 0| < eps)) := by
  intro l
  induction l with
  | nil =>
    intro c
    simp only [check_zeros_loop]
    constructor
    · intro h
      exact absurd h (by simp)
    · rintro (⟨t, h1, h2, _⟩ | ⟨s, t, h1, h2, _⟩) <;> simp at h2 <;> omega
  | cons x rest ih =>
    intro c
    by_cases hx : |x| < eps
    · by_cases hnum : num ≤ c + 1
      · rw [show check_zeros_loop num eps (x :: rest) c = true by
          simp [check_zeros_loop, hx, hnum]]
        simp only [true_iff]
        left
        refine ⟨1, le_refl 1, by simp, by omega, ?_⟩
        intro i hi
        have hi0 : i = 0 := by omega
        subst hi0
        simpa using hx
      · rw [show check_zeros_loop num eps (x :: rest) c =
            check_zeros_loop num eps rest (c + 1) by
          simp [check_zeros_loop, hx, hnum]]
        rw [ih (c + 1)]
        constructor
        · rintro (⟨t, h1, h2, h3, h4⟩ | ⟨s, t, h1, h2, h3, h4⟩)
          · left
            refine ⟨t + 1, by omega, by simp; omega, by omega, ?_⟩
            intro i hi
            match i with
            | 0 => simpa using hx
            | i + 1 =>
              rw [List.getD_cons_succ]
              exact h4 i (by omega)
          · right
            refine ⟨s + 1, t, h1, by simp; omega, h3, ?_⟩
            intro i hi
            rw [show s + 1 + i = (s + i) + 1 by omega, List.getD_cons_succ]
            exact h4 i hi
        · rintro (⟨t, h1, h2, h3, h4⟩ | ⟨s, t, h1, h2, h3, h4⟩)
          · have ht2 : 2 ≤ t := by omega
            left
            refine ⟨t - 1, by omega, by simp at h2; omega, by omega, ?_⟩
            intro i hi
            have := h4 (i + 1) (by omega)
            rw [List.getD_cons_succ] at this
            exact this
          · match s with
            | 0 =>
              have ht2 : 2 ≤ t := by
                by_contra hcon
                have ht1 : t = 1 := by omega
                omega
              left
              refine ⟨t - 1, by omega, by simp at h2; omega, by omega, ?_⟩
              intro i hi
              have := h4 (i + 1) (by omega)
              rw [show 0 + (i + 1) = i + 1 by omega, List.getD_cons_succ] at this
              exact this
            | s + 1 =>
              right
              refine ⟨s, t, h1, by simp at h2; omega, h3, ?_⟩
              intro i hi
              have := h4 i hi
              rw [show s + 1 + i = (s + i) + 1 by omega, List.getD_cons_succ] at this
              exact this
    · rw [show check_zeros_loop num eps (x :: rest) c =
          check_zeros_loop num eps rest 0 by
        simp [check_zeros_loop, hx]]
      rw [ih 0]
      constructor
      · rintro (⟨t, h1, h2, h3, h4⟩ | ⟨s, t, h1, h2, h3, h4⟩)
        · right
          refine ⟨1, t, h1, by simp; omega, by omega, ?_⟩
          intro i hi
          rw [show 1 + i = i + 1 by omega, List.getD_cons_succ]
          exact h4 i hi
        · right
          refine ⟨s + 1, t, h1, by simp; omega, h3, ?_⟩
          intro i hi
          rw [show s + 1 + i = (s + i) + 1 by omega, List.getD_cons_succ]
          exact h4 i hi
      · rintro (⟨t, h1, h2, h3, h4⟩ | ⟨s, t, h1, h2, h3, h4⟩)
        · have := h4 0 (by omega)
          rw [List.getD_cons_zero] at this
          exact absurd this hx
        · match s with
          | 0 =>
            have := h4 0 (by omega)
            rw [show 0 + 0 = 0 by omega, List.getD_cons_zero] at this
            exact absurd this hx
          | s + 1 =>
            right
            refine ⟨s, t, h1, by simp at h2; omega, h3, ?_⟩
            intro i hi
            have := h4 i hi
            rw [show s + 1 + i = (s + i) + 1 by omega, List.getD_cons_succ] at this
            exact this

theorem check_zeros_iff_has_run (g : List ℚ) (num : Nat) (eps : ℚ) (hnum : 1 ≤ num) :
    check_zeros g num eps = true ↔ has_run g num eps := by
  rw [check_zeros, check_zeros_loop_iff]
  constructor
  · rintro (⟨t, h1, h2, h3, h4⟩ | ⟨s, t, h1, h2, h3, h4⟩)
    · refine ⟨0, by omega, ?_⟩
      intro i hi
      simpa using h4 i (by omega)
    · refine ⟨s, by omega, ?_⟩
      intro i hi
      exact h4 i (by omega)
  · rintro ⟨s, hs, h4⟩
    right
    exact ⟨s, num, hnum, hs, le_refl num, h4⟩

theorem check_zeros_of_all_small (g : List ℚ) (num : Nat) (eps : ℚ)
    (hlen : 1 ≤ g.length) (hnum : num ≤ g.length)
    (hall : ∀ j, j < g.length → |g.getD j 0| < eps) :
    check_zeros g num eps = true := by
  by_cases h0 : num = 0
  · subst h0
    match g, hlen with
    | x :: rest, _ =>
      have hx : |x| < eps := by simpa using hall 0 (by simp)
      simp [check_zeros, check_zeros_loop, hx]
  · refine (check_zeros_iff_has_run g num eps (by omega)).mpr ⟨0, by omega, ?_⟩
    intro i hi
    simpa using hall i (by omega)

theorem getD_zero_of_all_zero : ∀ (l : List ℚ), (∀ x ∈ l, x = 0) → ∀ j, l.getD j 0 = 0 := by
  intro l
  induction l with
  | nil => intro _ j; simp
  | cons x rest ih =>
    intro h j
    match j with
    | 0 => simpa using h x (by simp)
    | j + 1 =>
      rw [List.getD_cons_succ]
      exact ih (fun y hy => h y (List.mem_cons_of_mem _ hy)) j

theorem fold_mul_set_all_zero (φ : Nat → Nat) (c : Nat → ℚ) :
    ∀ (idxs : List Nat) (g : List ℚ), (∀ x ∈ g, x = 0) →
      ∀ x ∈ idxs.foldl (fun acc k => acc.set (φ k) (acc.getD (φ k) 0 * c k)) g, x = 0 := by
  intro idxs
  induction idxs with
  | nil => intro g h; exact h
  | cons k rest ih =>
    intro g h
    rw [List.foldl_cons]
    apply ih
    intro x hx
    rcases List.mem_or_eq_of_mem_set hx with h1 | h2
    · exact h x h1
    · rw [h2, getD_zero_of_all_zero g h, zero_mul]

theorem apply_window_all_zero (w g : List ℚ) (h : ∀ x ∈ g, x = 0) :
    ∀ x ∈ apply_window w g, x = 0 :=
  fold_mul_set_all_zero
    (fun k => (window_head w g).length - (w.length - w.length / 2) + k)
    (fun k => w.getD (w.length / 2 + k) 0) _ _
    (fold_mul_set_all_zero (fun j => j) (fun j => w.getD j 0) _ g h)

theorem listSlice_all_zero (xs : List ℚ) (a b : Nat) (h : ∀ x ∈ xs, x = 0) :
    ∀ x ∈ listSlice xs a b, x = 0 := by
  intro x hx
  exact h x (List.mem_of_mem_take (List.mem_of_mem_drop hx))

theorem df2t_filter_all_zero (c : BiquadCoefs) (audio : List ℚ) (h : ∀ x ∈ audio, x = 0) :
    ∀ y ∈ df2t_filter c audio, y = 0 := by
  rw [df2t_filter]
  induction audio with
  | nil => simp [df2t_filter_go]
  | cons x rest ih =>
    have hx : x = 0 := h x (by simp)
    subst hx
    have hrun : df2t_run c ⟨0, 0⟩ 0 = (0, ⟨0, 0⟩) := by
      simp [df2t_run]
    intro y hy
    rw [df2t_filter_go, hrun] at hy
    simp only [List.mem_cons] at hy
    rcases hy with hy | hy
    · exact hy
    · exact ih (fun z hz => h z (List.mem_cons_of_mem _ hz)) y hy

theorem grain_rejected_eq (W F : List ℚ) (fr : Nat × Nat) :
    grain_rejected W F fr =
      (check_zeros (windowed_grain F W fr) ((windowed_grain F W fr).length / 8) (1 / 1000) ||
        check_zeros (windowed_grain F W fr) 50 (1 / 100000)) := rfl

theorem filterMap_if_eq_filter_map {α β : Type} (p : α → Bool) (f : α → β) :
    ∀ l : List α,
      (l.filterMap fun a => if p a then none else some (f a)) =
        (l.filter fun a => !p a).map f := by
  intro l
  induction l with
  | nil => rfl
  | cons a rest ih =>
    by_cases hp : p a <;> simp [List.filterMap_cons, List.filter_cons, hp, ih]

theorem surviving_grains_eq (dsp : Dsp) (audio : List ℚ) (frames : List (Nat × Nat))
    (mwl : Nat) :
    surviving_grains dsp audio frames mwl =
      ((frames.filter fun fr =>
          !grain_rejected (grain_window dsp frames mwl) (df2t_filter dsp.hp_coefs audio) fr).map
        (windowed_grain audio (grain_window dsp frames mwl))) := by
  cases frames with
  | nil => rfl
  | cons fr0 rest =>
    exact filterMap_if_eq_filter_map
      (grain_rejected (grain_window dsp (fr0 :: rest) mwl) (df2t_filter dsp.hp_coefs audio))
      (windowed_grain audio (grain_window dsp (fr0 :: rest) mwl)) (fr0 :: rest)

theorem analyze_grains_ok_shape (dsp : Dsp) (file_name : String) (audio : List ℚ)
    (frames : List (Nat × Nat)) (mwl sr fft : Nat) (es : List GrainEntry)
    (h : analyze_grains dsp file_name audio frames mwl sr fft = Except.ok es) :
    es = (List.range (surviving_grains dsp audio frames mwl).length).map fun i =>
      mk_entry dsp file_name sr fft (frames.getD i (0, 0))
        ((surviving_grains dsp audio frames mwl).getD i []) := by
  unfold analyze_grains at h
  cases hcf : check_frames fft 0 frames with
  | some e => rw [hcf] at h; simp at h
  | none =>
    rw [hcf] at h
    simpa using h.symm

theorem windowed_grain_length (samples W : List ℚ) (fr : Nat × Nat)
    (hle : fr.2 ≤ samples.length) :
    (windowed_grain samples W fr).length = fr.2 - fr.1 := by
  rw [windowed_grain, apply_window, window_tail_length, window_head_length, listSlice_length]
  omega

/-- Claim C3: a candidate grain is dropped exactly when its windowed
high-pass probe contains a run of at least `len/8` consecutive samples
below `1e-3` in absolute value, or a run of at least `50` consecutive
samples below `1e-5` (the two policies OR'd); the surviving grains are
the windowed grains cut from the unfiltered audio (never the probe), the
number of entries an Ok call returns is the number of accepted frames,
and on an all-zero chunk every grain is rejected, so an Ok call returns
no entry. Frames are assumed in bounds and at least 8 samples long (the
data-model invariant; `len/8 ≥ 1` then makes the first run length
meaningful). -/
theorem analyze_grains_rejection (dsp : Dsp) (file_name : String) (audio : List ℚ)
    (frames : List (Nat × Nat)) (mwl sr fft : Nat)
    (hb : ∀ fr ∈ frames, fr.2 ≤ audio.length ∧ 8 ≤ fr.2 - fr.1) :
    surviving_grains dsp audio frames mwl =
      ((frames.filter fun fr =>
          !grain_rejected (grain_window dsp frames mwl) (df2t_filter dsp.hp_coefs audio) fr).map
        (windowed_grain audio (grain_window dsp frames mwl))) ∧
    (∀ fr ∈ frames,
      (grain_rejected (grain_window dsp frames mwl) (df2t_filter dsp.hp_coefs audio) fr = true ↔
        has_run
          (windowed_grain (df2t_filter dsp.hp_coefs audio) (grain_window dsp frames mwl) fr)
          ((windowed_grain (df2t_filter dsp.hp_coefs audio) (grain_window dsp frames mwl)
              fr).length / 8)
          (1 / 1000) ∨
        has_run
          (windowed_grain (df2t_filter dsp.hp_coefs audio) (grain_window dsp frames mwl) fr)
          50 (1 / 100000))) ∧
    (∀ es, analyze_grains dsp file_name audio frames mwl sr fft = Except.ok es →
      es.length = (frames.filter fun fr =>
        !grain_rejected (grain_window dsp frames mwl) (df2t_filter dsp.hp_coefs audio)
          fr).length) ∧
    ((∀ x ∈ audio, x = 0) →
      (∀ fr ∈ frames,
        grain_rejected (grain_window dsp frames mwl) (df2t_filter dsp.hp_coefs audio) fr =
          true) ∧
      ∀ es, analyze_grains dsp file_name audio frames mwl sr fft = Except.ok es → es = []) := by
  have hFlen : (df2t_filter dsp.hp_coefs audio).length = audio.length :=
    df2t_filter_length dsp.hp_coefs audio
  have hplen : ∀ fr ∈ frames,
      (windowed_grain (df2t_filter dsp.hp_coefs audio) (grain_window dsp frames mwl)
        fr).length = fr.2 - fr.1 := by
    intro fr hfr
    exact windowed_grain_length _ _ fr (by rw [hFlen]; exact (hb fr hfr).1)
  have hiff : ∀ fr ∈ frames,
      grain_rejected (grain_window dsp frames mwl) (df2t_filter dsp.hp_coefs audio) fr = true ↔
        has_run
          (windowed_grain (df2t_filter dsp.hp_coefs audio) (grain_window dsp frames mwl) fr)
          ((windowed_grain (df2t_filter dsp.hp_coefs audio) (grain_window dsp frames mwl)
              fr).length / 8)
          (1 / 1000) ∨
        has_run
          (windowed_grain (df2t_filter dsp.hp_coefs audio) (grain_window dsp frames mwl) fr)
          50 (1 / 100000) := by
    intro fr hfr
    have h8 : 8 ≤ (windowed_grain (df2t_filter dsp.hp_coefs audio)
        (grain_window dsp frames mwl) fr).length := by
      rw [hplen fr hfr]
      exact (hb fr hfr).2
    rw [grain_rejected_eq, Bool.or_eq_true,
      check_zeros_iff_has_run _ _ _ (by omega),
      check_zeros_iff_has_run _ _ _ (by omega)]
  refine ⟨surviving_grains_eq dsp audio frames mwl, hiff, ?_, ?_⟩
  · intro es hes
    rw [analyze_grains_ok_shape dsp file_name audio frames mwl sr fft es hes]
    rw [List.length_map, List.length_range, surviving_grains_eq, List.length_map]
  · intro hzero
    have hrej : ∀ fr ∈ frames,
        grain_rejected (grain_window dsp frames mwl) (df2t_filter dsp.hp_coefs audio) fr =
          true := by
      intro fr hfr
      rw [grain_rejected_eq, Bool.or_eq_true]
      left
      apply check_zeros_of_all_small
      · rw [hplen fr hfr]
        have := (hb fr hfr).2
        omega
      · exact Nat.div_le_self _ 8
      · intro j _
        have hz : ∀ x ∈ windowed_grain (df2t_filter dsp.hp_coefs audio)
            (grain_window dsp frames mwl) fr, x = 0 := by
          intro x hx
          exact apply_window_all_zero _ _
            (listSlice_all_zero _ fr.1 fr.2 (df2t_filter_all_zero dsp.hp_coefs audio hzero))
            x hx
        rw [getD_zero_of_all_zero _ hz j]
        norm_num
    refine ⟨hrej, ?_⟩
    intro es hes
    rw [analyze_grains_ok_shape dsp file_name audio frames mwl sr fft es hes]
    have hsur : surviving_grains dsp audio frames mwl = [] := by
      rw [surviving_grains_eq]
      rw [show (frames.filter fun fr =>
          !grain_rejected (grain_window dsp frames mwl) (df2t_filter dsp.hp_coefs audio) fr) =
          [] from ?_]
      · rfl
      · rw [List.filter_eq_nil_iff]
        intro fr hfr
        rw [hrej fr hfr]
        simp
    rw [hsur]
    rfl

/-! ### Energy provenance (claim C4) -/

/-- Claim C4 as amended: the energy field of every produced entry is
computed from the grain after zero-padding to `fft_size` and after the
level adjustment, not before them (the source pads and adjusts
`grains[i]` in place and only then calls the energy collaborator). -/
theorem analyze_grains_energy (dsp : Dsp) (file_name : String) (audio : List ℚ)
    (frames : List (Nat × Nat)) (mwl sr fft : Nat) (es : List GrainEntry)
    (h : analyze_grains dsp file_name audio frames mwl sr fft = Except.ok es) :
    es.map GrainEntry.energy =
      (List.range (surviving_grains dsp audio frames mwl).length).map fun i =>
        dsp.energy (dsp.adjust_level
          ((surviving_grains dsp audio frames mwl).getD i [] ++
            List.replicate
              (fft - ((surviving_grains dsp audio frames mwl).getD i []).length) 0)) := by
  rw [analyze_grains_ok_shape dsp file_name audio frames mwl sr fft es h, List.map_map]
  rfl

/-- Counterexample to claim C4 as stated: with a sum-of-squares energy
collaborator and a halving level adjustment, the entry produced from the
grain `[1, 1]` at fft size 4 carries energy `1/2` (computed after
padding and adjustment), while the energy of the unpadded, un-adjusted
windowed grain is `2`. -/
theorem analyze_grains_energy_cex :
    (analyze_grains exDsp "f" [1, 1] [(0, 2)] 5000 44100 4).map (List.map GrainEntry.energy) =
      Except.ok [(1 : ℚ) / 2] ∧
    exDsp.energy (windowed_grain [1, 1] (grain_window exDsp [(0, 2)] 5000) (0, 2)) = 2 := by
  constructor
  · with_unfolding_all rfl
  · with_unfolding_all rfl

/-- Witness for the amended claim C4 at a concrete call. -/
theorem analyze_grains_energy_witness :
    (List.map GrainEntry.energy
        [mk_entry exDsp "f" 44100 4 (0, 2) ((surviving_grains exDsp [1, 1] [(0, 2)] 5000).getD 0 [])]) =
      (List.range (surviving_grains exDsp [1, 1] [(0, 2)] 5000).length).map fun i =>
        exDsp.energy (exDsp.adjust_level
          ((surviving_grains exDsp [1, 1] [(0, 2)] 5000).getD i [] ++
            List.replicate
              (4 - ((surviving_grains exDsp [1, 1] [(0, 2)] 5000).getD i []).length) 0)) :=
  analyze_grains_energy exDsp "f" [1, 1] [(0, 2)] 5000 44100 4 _ (by with_unfolding_all rfl)

/-! ### The similarity utility (claim C8) -/

theorem similarity_term_nonneg (a b : ℚ) : 0 ≤ similarity_term a b :=
  le_max_right _ _

theorem similarity_term_le_one (a b : ℚ) : similarity_term a b ≤ 1 := by
  rw [similarity_term]
  apply max_le
  · have habs : 0 ≤ |(a - b) / a| := abs_nonneg _
    linarith
  · norm_num

theorem similarity_term_self (a : ℚ) : similarity_term a a = 1 := by
  rw [similarity_term]
  norm_num

/-- Claim C8 as amended: `similarity` is the mean over the fourteen
spectral descriptors of `max(0, 1 - |(a - b) / a|)` — the absolute value
is taken of the whole quotient — and so lies in `[0, 1]`, equalling 1
when the two entries carry identical descriptors, all nonzero. -/
theorem similarity_spec (grain1 grain2 : GrainEntry) :
    (0 ≤ similarity grain1 grain2 ∧ similarity grain1 grain2 ≤ 1) ∧
    ((grain1.spectral_centroid = grain2.spectral_centroid ∧
      grain1.spectral_entropy = grain2.spectral_entropy ∧
      grain1.spectral_flatness = grain2.spectral_flatness ∧
      grain1.spectral_kurtosis = grain2.spectral_kurtosis ∧
      grain1.spectral_roll_off_50 = grain2.spectral_roll_off_50 ∧
      grain1.spectral_roll_off_75 = grain2.spectral_roll_off_75 ∧
      grain1.spectral_roll_off_90 = grain2.spectral_roll_off_90 ∧
      grain1.spectral_roll_off_95 = grain2.spectral_roll_off_95 ∧
      grain1.spectral_skewness = grain2.spectral_skewness ∧
      grain1.spectral_slope = grain2.spectral_slope ∧
      grain1.spectral_slope_0_1_khz = grain2.spectral_slope_0_1_khz ∧
      grain1.spectral_slope_1_5_khz = grain2.spectral_slope_1_5_khz ∧
      grain1.spectral_slope_0_5_khz = grain2.spectral_slope_0_5_khz ∧
      grain1.spectral_variance = grain2.spectral_variance) ∧
     (grain1.spectral_centroid ≠ 0 ∧ grain1.spectral_entropy ≠ 0 ∧
      grain1.spectral_flatness ≠ 0 ∧ grain1.spectral_kurtosis ≠ 0 ∧
      grain1.spectral_roll_off_50 ≠ 0 ∧ grain1.spectral_roll_off_75 ≠ 0 ∧
      grain1.spectral_roll_off_90 ≠ 0 ∧ grain1.spectral_roll_off_95 ≠ 0 ∧
      grain1.spectral_skewness ≠ 0 ∧ grain1.spectral_slope ≠ 0 ∧
      grain1.spectral_slope_0_1_khz ≠ 0 ∧ grain1.spectral_slope_1_5_khz ≠ 0 ∧
      grain1.spectral_slope_0_5_khz ≠ 0 ∧ grain1.spectral_variance ≠ 0) →
      similarity grain1 grain2 = 1) := by
  constructor
  · have l1 := similarity_term_nonneg grain1.spectral_centroid grain2.spectral_centroid
    have l2 := similarity_term_nonneg grain1.spectral_entropy grain2.spectral_entropy
    have l3 := similarity_term_nonneg grain1.spectral_flatness grain2.spectral_flatness
    have l4 := similarity_term_nonneg grain1.spectral_kurtosis grain2.spectral_kurtosis
    have l5 := similarity_term_nonneg grain1.spectral_roll_off_50 grain2.spectral_roll_off_50
    have l6 := similarity_term_nonneg grain1.spectral_roll_off_75 grain2.spectral_roll_off_75
    have l7 := similarity_term_nonneg grain1.spectral_roll_off_90 grain2.spectral_roll_off_90
    have l8 := similarity_term_nonneg grain1.spectral_roll_off_95 grain2.spectral_roll_off_95
    have l9 := similarity_term_nonneg grain1.spectral_skewness grain2.spectral_skewness
    have l10 := similarity_term_nonneg grain1.spectral_slope grain2.spectral_slope
    have l11 := similarity_term_nonneg grain1.spectral_slope_0_1_khz grain2.spectral_slope_0_1_khz
    have l12 := similarity_term_nonneg grain1.spectral_slope_1_5_khz grain2.spectral_slope_1_5_khz
    have l13 := similarity_term_nonneg grain1.spectral_slope_0_5_khz grain2.spectral_slope_0_5_khz
    have l14 := similarity_term_nonneg grain1.spectral_variance grain2.spectral_variance
    have u1 := similarity_term_le_one grain1.spectral_centroid grain2.spectral_centroid
    have u2 := similarity_term_le_one grain1.spectral_entropy grain2.spectral_entropy
    have u3 := similarity_term_le_one grain1.spectral_flatness grain2.spectral_flatness
    have u4 := similarity_term_le_one grain1.spectral_kurtosis grain2.spectral_kurtosis
    have u5 := similarity_term_le_one grain1.spectral_roll_off_50 grain2.spectral_roll_off_50
    have u6 := similarity_term_le_one grain1.spectral_roll_off_75 grain2.spectral_roll_off_75
    have u7 := similarity_term_le_one grain1.spectral_roll_off_90 grain2.spectral_roll_off_90
    have u8 := similarity_term_le_one grain1.spectral_roll_off_95 grain2.spectral_roll_off_95
    have u9 := similarity_term_le_one grain1.spectral_skewness grain2.spectral_skewness
    have u10 := similarity_term_le_one grain1.spectral_slope grain2.spectral_slope
    have u11 := similarity_term_le_one grain1.spectral_slope_0_1_khz grain2.spectral_slope_0_1_khz
    have u12 := similarity_term_le_one grain1.spectral_slope_1_5_khz grain2.spectral_slope_1_5_khz
    have u13 := similarity_term_le_one grain1.spectral_slope_0_5_khz grain2.spectral_slope_0_5_khz
    have u14 := similarity_term_le_one grain1.spectral_variance grain2.spectral_variance
    rw [similarity]
    constructor
    · apply div_nonneg _ (by norm_num)
      linarith
    · rw [div_le_one (by norm_num)]
      linarith
  · rintro ⟨⟨e1, e2, e3, e4, e5, e6, e7, e8, e9, e10, e11, e12, e13, e14⟩, -⟩
    rw [similarity, ← e1, ← e2, ← e3, ← e4, ← e5, ← e6, ← e7, ← e8, ← e9, ← e10, ← e11,
      ← e12, ← e13, ← e14]
    rw [similarity_term_self, similarity_term_self, similarity_term_self,
      similarity_term_self, similarity_term_self, similarity_term_self,
      similarity_term_self, similarity_term_self, similarity_term_self,
      similarity_term_self, similarity_term_self, similarity_term_self,
      similarity_term_self, similarity_term_self]
    norm_num

/-- Counterexample to claim C8 as stated: on two entries that differ only
in a negative spectral centroid, the source returns `13/14`, while the
spec's formula `max(0, 1 - |a - b| / a)` (absolute value of the
numerator only) yields `8/7`, which moreover exceeds 1, contradicting
the claim's own `[0, 1]` assertion. -/
theorem similarity_formula_cex :
    similarity cexEntry1 cexEntry2 = 13 / 14 ∧
    spec_similarity cexEntry1 cexEntry2 = 8 / 7 ∧
    spec_similarity cexEntry1 cexEntry2 ≠ similarity cexEntry1 cexEntry2 ∧
    ¬ spec_similarity cexEntry1 cexEntry2 ≤ 1 := by
  refine ⟨?_, ?_, ?_, ?_⟩ <;> with_unfolding_all decide

/-! ### Profile orchestration determinism (claim C9) -/

/-- Claim C9: each chunk task is a pure function of its own (cloned)
chunk, so a profile run's received batch list is a permutation of
`profile_batches` whatever the pool size; any two received lists —
e.g. one from a single-worker pool and one from an N-worker pool —
carry the same multiset, hence the same set, of `GrainEntry` values. -/
theorem profile_run_deterministic (dsp : Dsp) (grain_size grain_spacing : Nat)
    (chunks : List (String × Nat × List ℚ))
    (recv1 recv2 : List (String × List GrainEntry))
    (h1 : recv1.Perm (profile_batches dsp grain_size grain_spacing chunks))
    (h2 : recv2.Perm (profile_batches dsp grain_size grain_spacing chunks)) :
    ((recv1.map Prod.snd).flatten).Perm ((recv2.map Prod.snd).flatten) ∧
    ∀ e : GrainEntry,
      e ∈ (recv1.map Prod.snd).flatten ↔ e ∈ (recv2.map Prod.snd).flatten := by
  have hp : recv1.Perm recv2 := h1.trans h2.symm
  have hflat : ((recv1.map Prod.snd).flatten).Perm ((recv2.map Prod.snd).flatten) :=
    (hp.map Prod.snd).flatten
  exact ⟨hflat, fun e => hflat.mem_iff⟩

/-- Witness for claim C9: two chunks, received in the two possible orders. -/
theorem profile_run_deterministic_witness :
    ((([("a", ([] : List GrainEntry)), ("b", [])]).map Prod.snd).flatten).Perm
      ((([("b", ([] : List GrainEntry)), ("a", [])]).map Prod.snd).flatten) ∧
    ∀ e : GrainEntry,
      e ∈ (([("a", ([] : List GrainEntry)), ("b", [])]).map Prod.snd).flatten ↔
        e ∈ (([("b", ([] : List GrainEntry)), ("a", [])]).map Prod.snd).flatten :=
  profile_run_deterministic exDsp 2 1 [("a", 8, [1, 1]), ("b", 8, [1, 1])]
    [("a", []), ("b", [])] [("b", []), ("a", [])]
    (List.Perm.refl _) (List.Perm.swap _ _ _)

/-! ### Chunk splitting in main (claim C10) -/

theorem split_chunks_loop_bound (samples : List ℚ) (ms : Nat) :
    ∀ fuel start_idx, ∀ ch ∈ split_chunks_loop samples ms fuel start_idx, ch.length ≤ ms := by
  intro fuel
  induction fuel with
  | zero => intro start_idx ch hch; simp [split_chunks_loop] at hch
  | succ fuel ih =>
    intro start_idx ch hch
    by_cases hs : start_idx < samples.length
    · rw [split_chunks_loop, if_pos hs] at hch
      rcases List.mem_cons.mp hch with h | h
      · rw [h, listSlice_length]
        omega
      · exact ih _ ch h
    · rw [split_chunks_loop, if_neg hs] at hch
      simp at hch

/-- Claim C10: the chunk splitting in main is bounded by the constant
`MAX_AUDIO_SIZE = 44100 * 120` and reads nothing from the configuration:
two configurations that differ only in `max_audio_chunk_size` produce
identical chunk lists from the same decoded audio, and every chunk's
length is at most `44100 * 120`. -/
theorem main_chunks_spec (cfg1 cfg2 : GranulatorConfig) (samples : List ℚ)
    (hsame : cfg1.database_path = cfg2.database_path ∧
      cfg1.audio_source_directory = cfg2.audio_source_directory ∧
      cfg1.grain_profiles = cfg2.grain_profiles ∧
      cfg1.max_num_threads = cfg2.max_num_threads) :
    main_chunks_of cfg1 samples = main_chunks_of cfg2 samples ∧
    ∀ ch ∈ main_chunks_of cfg1 samples, ch.length ≤ 44100 * 120 := by
  constructor
  · rfl
  · intro ch hch
    exact split_chunks_loop_bound samples MAX_AUDIO_SIZE samples.length 0 ch hch

/-- Witness for claim C10: two configurations differing only in
`max_audio_chunk_size` (100 versus 999). -/
theorem main_chunks_spec_witness :
    main_chunks_of ⟨"db", "dir", [], 100, 4⟩ [1, 1] =
      main_chunks_of ⟨"db", "dir", [], 999, 4⟩ [1, 1] ∧
    ∀ ch ∈ main_chunks_of ⟨"db", "dir", [], 100, 4⟩ [1, 1], ch.length ≤ 44100 * 120 :=
  main_chunks_spec ⟨"db", "dir", [], 100, 4⟩ ⟨"db", "dir", [], 999, 4⟩ [1, 1]
    ⟨rfl, rfl, rfl, rfl⟩

/-! ### Closed witnesses for the hypotheses-bearing claims -/

/-- Witness for claim C1 at ten samples, grain size 2, spacing 3, offset 1. -/
theorem extract_grain_frames_spec_witness :
    (∃ n, extract_grain_frames (List.replicate 10 (0 : ℚ)) 2 3 1 =
        (List.range n).map (fun k => (1 + k * 3, 1 + k * 3 + 2)) ∧
      ∀ k, 1 + k * 3 + 2 < (List.replicate 10 (0 : ℚ)).length ↔ k < n) ∧
    ((List.replicate 10 (0 : ℚ)).length ≤ 1 + 2 →
      extract_grain_frames (List.replicate 10 (0 : ℚ)) 2 3 1 = []) ∧
    ∀ p ∈ extract_grain_frames (List.replicate 10 (0 : ℚ)) 2 3 1,
      p.2 = p.1 + 2 ∧ p.1 + 2 < (List.replicate 10 (0 : ℚ)).length ∧
        p.1 < (List.replicate 10 (0 : ℚ)).length - 2 :=
  extract_grain_frames_spec (List.replicate 10 0) 2 3 1 (by decide)

/-- Witness for claim C2 at the grain `[2, 3]` and the window `[1]`. -/
theorem apply_window_spec_witness :
    (apply_window [(1 : ℚ)] [2, 3]).length = ([2, 3] : List ℚ).length ∧
    (∀ j, j < ([(1 : ℚ)] : List ℚ).length / 2 →
      (apply_window [(1 : ℚ)] [2, 3]).getD j 0 =
        ([2, 3] : List ℚ).getD j 0 * ([(1 : ℚ)] : List ℚ).getD j 0) ∧
    (∀ j, ([(1 : ℚ)] : List ℚ).length / 2 ≤ j → j < ([(1 : ℚ)] : List ℚ).length →
      (apply_window [(1 : ℚ)] [2, 3]).getD
          (([2, 3] : List ℚ).length -
              (([(1 : ℚ)] : List ℚ).length - ([(1 : ℚ)] : List ℚ).length / 2) +
            (j - ([(1 : ℚ)] : List ℚ).length / 2)) 0 =
        ([2, 3] : List ℚ).getD
            (([2, 3] : List ℚ).length -
                (([(1 : ℚ)] : List ℚ).length - ([(1 : ℚ)] : List ℚ).length / 2) +
              (j - ([(1 : ℚ)] : List ℚ).length / 2)) 0 *
          ([(1 : ℚ)] : List ℚ).getD j 0) ∧
    (∀ j, ([(1 : ℚ)] : List ℚ).length / 2 ≤ j →
      j < ([2, 3] : List ℚ).length -
          (([(1 : ℚ)] : List ℚ).length - ([(1 : ℚ)] : List ℚ).length / 2) →
      (apply_window [(1 : ℚ)] [2, 3]).getD j 0 = ([2, 3] : List ℚ).getD j 0) ∧
    (([(1 : ℚ)] : List ℚ).length = ([2, 3] : List ℚ).length →
      ∀ j, j < ([(1 : ℚ)] : List ℚ).length →
        (apply_window [(1 : ℚ)] [2, 3]).getD j 0 =
          ([2, 3] : List ℚ).getD j 0 * ([(1 : ℚ)] : List ℚ).getD j 0) :=
  apply_window_spec [2, 3] [(1 : ℚ)] (by decide)

/-- Witness for claim C3 at one in-bounds frame of eight unit samples. -/
theorem analyze_grains_rejection_witness :
    surviving_grains exDsp [1, 1, 1, 1, 1, 1, 1, 1] [(0, 8)] 5000 =
      ((([(0, 8)] : List (Nat × Nat)).filter fun fr =>
          !grain_rejected (grain_window exDsp [(0, 8)] 5000)
            (df2t_filter exDsp.hp_coefs [1, 1, 1, 1, 1, 1, 1, 1]) fr).map
        (windowed_grain [1, 1, 1, 1, 1, 1, 1, 1] (grain_window exDsp [(0, 8)] 5000))) ∧
    (∀ fr ∈ ([(0, 8)] : List (Nat × Nat)),
      (grain_rejected (grain_window exDsp [(0, 8)] 5000)
          (df2t_filter exDsp.hp_coefs [1, 1, 1, 1, 1, 1, 1, 1]) fr = true ↔
        has_run
          (windowed_grain (df2t_filter exDsp.hp_coefs [1, 1, 1, 1, 1, 1, 1, 1])
            (grain_window exDsp [(0, 8)] 5000) fr)
          ((windowed_grain (df2t_filter exDsp.hp_coefs [1, 1, 1, 1, 1, 1, 1, 1])
              (grain_window exDsp [(0, 8)] 5000) fr).length / 8)
          (1 / 1000) ∨
        has_run
          (windowed_grain (df2t_filter exDsp.hp_coefs [1, 1, 1, 1, 1, 1, 1, 1])
            (grain_window exDsp [(0, 8)] 5000) fr)
          50 (1 / 100000))) ∧
    (∀ es, analyze_grains exDsp "f" [1, 1, 1, 1, 1, 1, 1, 1] [(0, 8)] 5000 44100 8 =
        Except.ok es →
      es.length = (([(0, 8)] : List (Nat × Nat)).filter fun fr =>
        !grain_rejected (grain_window exDsp [(0, 8)] 5000)
          (df2t_filter exDsp.hp_coefs [1, 1, 1, 1, 1, 1, 1, 1]) fr).length) ∧
    ((∀ x ∈ ([1, 1, 1, 1, 1, 1, 1, 1] : List ℚ), x = 0) →
      (∀ fr ∈ ([(0, 8)] : List (Nat × Nat)),
        grain_rejected (grain_window exDsp [(0, 8)] 5000)
          (df2t_filter exDsp.hp_coefs [1, 1, 1, 1, 1, 1, 1, 1]) fr = true) ∧
      ∀ es, analyze_grains exDsp "f" [1, 1, 1, 1, 1, 1, 1, 1] [(0, 8)] 5000 44100 8 =
          Except.ok es → es = []) :=
  analyze_grains_rejection exDsp "f" [1, 1, 1, 1, 1, 1, 1, 1] [(0, 8)] 5000 44100 8
    (by decide)

end GrainProc
